import Mathlib

/-!
Verification of the PolyStore streaming core against its specification.

The definitions below are a shallow embedding of the producer-side streaming
backends (`src/polystore/fiji_stream.py`, `src/polystore/napari_stream.py`),
the receiver-side window projection
(`src/polystore/streaming/receivers/core/window_projection.py`) and the
debounced batch engine
(`src/polystore/streaming/receivers/core/batch_engine.py`).

Side effects of `save_batch` (publisher connection, shared-memory creation,
transport send, queue-tracker registration, buffer close and unlink) are
recorded as an explicit event trace; the outcome of the non-blocking ZMQ send
(success, `zmq.Again`, or any other exception) is a parameter of the model.
-/

/-- Observable side effects of a `save_batch` call, in program order. -/
inductive Ev
  | connect (key : String)
  | createShm (name : String)
  | send
  | registerSent (itemId : String)
  | closeShm (name : String)
  | unlinkShm (name : String)
  deriving DecidableEq, Repr

/-- Outcome of the non-blocking `publisher.send_json` call:
`ok` (sent), `busy` (`zmq.Again`: queue full, batch dropped), or
`err` (any other exception raised by the send). -/
inductive SendOutcome
  | ok
  | busy
  | err
  deriving DecidableEq, Repr

/-- Python exceptions surfaced by `save_batch` in the model. -/
inductive PyError
  | valueError
  | sendError
  deriving DecidableEq, Repr

/-- Payload kind of a batch item as detected by the napari backend
(`_detect_data_type`): images get a shared-memory buffer, shapes (ROIs)
are serialized inline.  The fiji backend treats every item as an image. -/
inductive DataType
  | image
  | shapes
  deriving DecidableEq, Repr

/-- One element of the `data_list`/`file_paths` pair handed to `save_batch`,
together with the unique shared-memory name and uuid the backend generates
for it (`shm_name = f"fiji_{id(data)}_{time.time_ns()}"`, `uuid.uuid4()`). -/
structure StreamItem where
  path : String
  shmName : String
  itemId : String
  dataType : DataType
  deriving DecidableEq, Repr

/-- Producer-side backend state: the keys of `self._publishers` and of
`self._shared_memory_blocks` (Python dict keys, hence no duplicates). -/
structure BackendState where
  publishers : List String
  sharedMemoryBlocks : List String
  deriving DecidableEq, Repr

/-- Result of one `save_batch` call: the new backend state, the trace of
side effects performed, and the exception surfaced to the caller, if any. -/
structure BatchResult where
  state : BackendState
  trace : List Ev
  error : Option PyError
  deriving DecidableEq, Repr

/-- Python dict-key insertion: `d[k] = v` adds `k` once, preserving order. -/
def dictInsert (ks : List String) (k : String) : List String :=
  if k ∈ ks then ks else ks ++ [k]

/-- Keys of `self._shared_memory_blocks` after the per-item creation loop. -/
def insertAll (ks : List String) (names : List String) : List String :=
  names.foldl dictInsert ks

/-- The cleanup loops of `save_batch`:
`for img in batch_images: if shm_name in self._shared_memory_blocks:
shm = blocks.pop(shm_name); shm.close(); [shm.unlink()]`.
Returns the remaining block keys and the emitted close/unlink events. -/
def cleanupBlocks (blocks : List String) (alsoUnlink : Bool) :
    List String → List String × List Ev
  | [] => (blocks, [])
  | n :: rest =>
    if n ∈ blocks then
      let r := cleanupBlocks (blocks.erase n) alsoUnlink rest
      (r.1, (Ev.closeShm n :: if alsoUnlink then [Ev.unlinkShm n] else []) ++ r.2)
    else cleanupBlocks blocks alsoUnlink rest

/-- Lazy publisher lookup (`_get_publisher`): connect on first use of a
`host:port` key, reuse afterwards.  The napari backend inherits this helper
from outside this repository; modelled from the spec: connection is lazy,
pub sockets are pooled per destination. -/
def getPublisher (pubs : List String) (key : String) : List String × List Ev :=
  if key ∈ pubs then (pubs, []) else (pubs ++ [key], [Ev.connect key])

/-- `FijiStreamingBackend.save_batch` (src/polystore/fiji_stream.py):
length check, lazy publisher, per-item shared-memory creation, non-blocking
send; on success register every item id and close (not unlink) each buffer;
on `zmq.Again` close and unlink each buffer; any other send exception
propagates with no cleanup. -/
def FijiStreamingBackend.save_batch (st : BackendState)
    (data_list : List StreamItem) (file_paths : List String)
    (publisherKey : String) (out : SendOutcome) : BatchResult :=
  if data_list.length ≠ file_paths.length then
    { state := st, trace := [], error := some PyError.valueError }
  else
    let pub := getPublisher st.publishers publisherKey
    let shmNames := data_list.map (fun it => it.shmName)
    let blocks := insertAll st.sharedMemoryBlocks shmNames
    let pre := pub.2 ++ shmNames.map Ev.createShm
    match out with
    | SendOutcome.ok =>
      let regEvs := data_list.map (fun it => Ev.registerSent it.itemId)
      let cl := cleanupBlocks blocks false shmNames
      { state := { publishers := pub.1, sharedMemoryBlocks := cl.1 },
        trace := pre ++ Ev.send :: (regEvs ++ cl.2),
        error := none }
    | SendOutcome.busy =>
      let cl := cleanupBlocks blocks true shmNames
      { state := { publishers := pub.1, sharedMemoryBlocks := cl.1 },
        trace := pre ++ cl.2,
        error := none }
    | SendOutcome.err =>
      { state := { publishers := pub.1, sharedMemoryBlocks := blocks },
        trace := pre,
        error := some PyError.sendError }

/-- Shared-memory names of the image items of a batch (napari: ROI/shapes
items carry no `shm_name`). -/
def imageShmNames (data_list : List StreamItem) : List String :=
  (data_list.filter (fun it => it.dataType = DataType.image)).map (fun it => it.shmName)

/-- `NapariStreamingBackend.save_batch` (src/polystore/napari_stream.py):
same shape as the fiji backend, except that shapes items create no shared
memory, and a send exception other than `zmq.Again` first closes and unlinks
every buffer of the batch and then re-raises.  The helpers
`_create_shared_memory` and `_register_with_queue_tracker` are inherited
from outside this repository; modelled from the spec: buffer creation
records the block under its name, registration calls `register_sent` once
per item id. -/
def NapariStreamingBackend.save_batch (st : BackendState)
    (data_list : List StreamItem) (file_paths : List String)
    (publisherKey : String) (out : SendOutcome) : BatchResult :=
  if data_list.length ≠ file_paths.length then
    { state := st, trace := [], error := some PyError.valueError }
  else
    let pub := getPublisher st.publishers publisherKey
    let shmNames := imageShmNames data_list
    let blocks := insertAll st.sharedMemoryBlocks shmNames
    let pre := pub.2 ++ shmNames.map Ev.createShm
    match out with
    | SendOutcome.ok =>
      let regEvs := data_list.map (fun it => Ev.registerSent it.itemId)
      let cl := cleanupBlocks blocks false shmNames
      { state := { publishers := pub.1, sharedMemoryBlocks := cl.1 },
        trace := pre ++ Ev.send :: (regEvs ++ cl.2),
        error := none }
    | SendOutcome.busy =>
      let cl := cleanupBlocks blocks true shmNames
      { state := { publishers := pub.1, sharedMemoryBlocks := cl.1 },
        trace := pre ++ cl.2,
        error := none }
    | SendOutcome.err =>
      let cl := cleanupBlocks blocks true shmNames
      { state := { publishers := pub.1, sharedMemoryBlocks := cl.1 },
        trace := pre ++ cl.2,
        error := some PyError.sendError }

/-- `l.any (· = b)` for events, used to speak about trace membership. -/
def containsEv (l : List Ev) (b : Ev) : Bool :=
  l.any (fun e => decide (e = b))

/-- `occursBefore a b tr` holds when some occurrence of `a` appears strictly
before some occurrence of `b` in the trace `tr`. -/
def occursBefore (a b : Ev) : List Ev → Bool
  | [] => false
  | e :: rest => (decide (e = a) && containsEv rest b) || occursBefore a b rest

/-- A fresh backend with no publishers and no shared blocks. -/
def emptyBackend : BackendState :=
  { publishers := [], sharedMemoryBlocks := [] }

/-- A concrete single-image batch item used in witnesses. -/
def sampleItem : StreamItem :=
  { path := "A01_w1.tif", shmName := "fiji_140001_17", itemId := "id-1",
    dataType := DataType.image }

/-!
Window projection
(src/polystore/streaming/receivers/core/window_projection.py).
-/

/-- A Python metadata value: a short string or an integer. -/
inductive PyVal
  | s (v : String)
  | i (n : Int)
  deriving DecidableEq, Repr

/-- Python `str(value)` / f-string rendering of a metadata value. -/
def PyVal.toStr : PyVal → String
  | PyVal.s v => v
  | PyVal.i n => toString n

/-- An item handed to the window projection: `item.get("data_type")` and the
`"metadata"` dict (association list with unique keys, Python dict order). -/
structure ProjItem where
  dataType : Option String
  metadata : List (String × PyVal)
  deriving DecidableEq, Repr

/-- Python dict lookup `d.get(k)` on an association list. -/
def assocLookup {β : Type} (m : List (String × β)) (k : String) : Option β :=
  match m.find? (fun p => decide (p.1 = k)) with
  | some p => some p.2
  | none => none

/-- `listPrefixEq n l` holds when `n` is a prefix of `l` (character match). -/
def listPrefixEq : List Char → List Char → Bool
  | [], _ => true
  | _ :: _, [] => false
  | a :: as, b :: bs => decide (a = b) && listPrefixEq as bs

/-- Helper for substring containment over character lists. -/
def containsAux (needle : List Char) : List Char → Bool
  | [] => listPrefixEq needle []
  | b :: bs => listPrefixEq needle (b :: bs) || containsAux needle bs

/-- Python `needle in haystack` substring containment. -/
def strContains (hay needle : String) : Bool :=
  containsAux needle.toList hay.toList

/-- Helper for `pathName`: scan the characters, tracking the segment being
read and the last nonempty `/`-separated segment completed so far. -/
def pathNameAux : List Char → List Char → List Char → List Char
  | [], cur, last => if cur.isEmpty then last else cur
  | c :: rest, cur, last =>
    if c = '/' then pathNameAux rest [] (if cur.isEmpty then last else cur)
    else pathNameAux rest (cur ++ [c]) last

/-- Python `pathlib.Path(p).name` for POSIX-style paths: the last nonempty
`/`-separated component (empty for the root). -/
def pathName (p : String) : String :=
  String.mk (pathNameAux p.toList [] [])

/-- Python truthiness of the optional `images_dir` string. -/
def truthyDir : Option String → Bool
  | none => false
  | some s => decide (s ≠ "")

/-- `_default_normalizer`: for ROI items with a synthetic `source` value
(containing `"_results"` or `"/"`) substitute the leaf name of `images_dir`;
everything else passes through unchanged. -/
def default_normalizer (component_name : String) (value : PyVal)
    (item : ProjItem) (images_dir : Option String) : PyVal :=
  if component_name = "source" ∧ truthyDir images_dir = true
      ∧ item.dataType = some "rois" then
    let valueStr := value.toStr
    if strContains valueStr "_results" || strContains valueStr "/" then
      PyVal.s (pathName (images_dir.getD ""))
    else value
  else value

/-- Errors raised by `group_items_by_component_modes`: a component mode not
among the four recognised list keys, or a component missing from
`component_modes` (both `KeyError` in Python). -/
inductive ProjError
  | keyErrorMode (mode : String)
  | keyErrorComponent (c : String)
  deriving DecidableEq, Repr

/-- Result record of `group_items_by_component_modes`
(`GroupedWindowItems` dataclass). -/
structure GroupedWindowItems where
  window_components : List String
  channel_components : List String
  slice_components : List String
  frame_components : List String
  windows : List (String × List ProjItem)
  fixed_window_labels : List (String × List (String × PyVal))
  deriving DecidableEq, Repr

/-- The first loop of `group_items_by_component_modes`: split
`component_order` into the `window`/`channel`/`slice`/`frame` lists via
`result[component_modes[comp_name]].append(comp_name)`; any other mode, or a
component absent from `component_modes`, raises `KeyError`. -/
def classifyComponents (modes : List (String × String)) :
    List String → Except ProjError (List String × List String × List String × List String)
  | [] => Except.ok ([], [], [], [])
  | c :: rest =>
    match assocLookup modes c with
    | none => Except.error (ProjError.keyErrorComponent c)
    | some mode =>
      if mode = "window" ∨ mode = "channel" ∨ mode = "slice" ∨ mode = "frame" then
        match classifyComponents modes rest with
        | Except.error e => Except.error e
        | Except.ok (w, ch, sl, fr) =>
          if mode = "window" then Except.ok (c :: w, ch, sl, fr)
          else if mode = "channel" then Except.ok (w, c :: ch, sl, fr)
          else if mode = "slice" then Except.ok (w, ch, c :: sl, fr)
          else Except.ok (w, ch, sl, c :: fr)
      else Except.error (ProjError.keyErrorMode mode)

/-- The `(component, normalized value)` pairs collected for one item: each
window-mode component present in the item's metadata, in order. -/
def windowPairs (window_components : List String) (images_dir : Option String)
    (item : ProjItem) : List (String × PyVal) :=
  window_components.filterMap (fun comp =>
    match assocLookup item.metadata comp with
    | none => none
    | some v => some (comp, default_normalizer comp v item images_dir))

/-- Per-item window-key computation: for each window-mode component present
in the item's metadata, normalize the value and collect
`(component, value)`; the key is `"_".join(f"{comp}_{value}")`, or
`"default_window"` when no parts were collected. -/
def windowKeyFor (window_components : List String) (images_dir : Option String)
    (item : ProjItem) : String × List (String × PyVal) :=
  let pairs := windowPairs window_components images_dir item
  let key_parts := pairs.map (fun p => p.1 ++ "_" ++ p.2.toStr)
  (if key_parts = [] then "default_window" else String.intercalate "_" key_parts,
   pairs)

/-- `windows.setdefault(key, []).append(item)` on an insertion-ordered map
with unique keys: update the entry in place, or append a new one at the
end. -/
def assocAppend : List (String × List ProjItem) → String → ProjItem →
    List (String × List ProjItem)
  | [], k, it => [(k, [it])]
  | p :: ps, k, it =>
    if p.1 = k then (p.1, p.2 ++ [it]) :: ps
    else p :: assocAppend ps k it

/-- `if key not in fixed_window_labels: fixed_window_labels[key] = labels`
on an insertion-ordered map with unique keys. -/
def labelsInsert : List (String × List (String × PyVal)) → String →
    List (String × PyVal) → List (String × List (String × PyVal))
  | [], k, v => [(k, v)]
  | p :: ps, k, v =>
    if p.1 = k then p :: ps else p :: labelsInsert ps k v

/-- The body of the item loop of `group_items_by_component_modes`: append
the item under its window key and record the key's fixed labels on first
sight. -/
def buildStep (window_components : List String) (images_dir : Option String)
    (acc : List (String × List ProjItem) × List (String × List (String × PyVal)))
    (it : ProjItem) :
    List (String × List ProjItem) × List (String × List (String × PyVal)) :=
  let kp := windowKeyFor window_components images_dir it
  (assocAppend acc.1 kp.1 it, labelsInsert acc.2 kp.1 kp.2)

/-- The item loop of `group_items_by_component_modes`: build the `windows`
map and the `fixed_window_labels` map in item order. -/
def buildWindows (window_components : List String) (images_dir : Option String)
    (items : List ProjItem) :
    List (String × List ProjItem) × List (String × List (String × PyVal)) :=
  items.foldl (buildStep window_components images_dir) ([], [])

/-- `group_items_by_component_modes` with the default normalizer. -/
def group_items_by_component_modes (items : List ProjItem)
    (component_modes : List (String × String)) (component_order : List String)
    (images_dir : Option String) : Except ProjError GroupedWindowItems :=
  match classifyComponents component_modes component_order with
  | Except.error e => Except.error e
  | Except.ok (w, ch, sl, fr) =>
    let built := buildWindows w images_dir items
    Except.ok
      { window_components := w, channel_components := ch,
        slice_components := sl, frame_components := fr,
        windows := built.1, fixed_window_labels := built.2 }

/-- Lookup of the item list grouped under a window key
(`grouped.windows[key]`, empty when the key is absent). -/
def lookupWindows : List (String × List ProjItem) → String → List ProjItem
  | [], _ => []
  | p :: ps, k => if p.1 = k then p.2 else lookupWindows ps k

/-!
Debounced batch engine
(src/polystore/streaming/receivers/core/batch_engine.py).

Wall-clock times and delays are modelled as rationals; `enqueue` receives
the current time `now` explicitly (the two `time.time()` reads inside the
Python lock are modelled as one instant, which is exact for the sequential
semantics of the locked section).
-/

/-- Engine configuration: `debounce_delay_ms / 1000` and
`max_debounce_wait_ms / 1000`. -/
structure EngineConfig where
  debounceDelay : ℚ
  maxWait : ℚ
  deriving DecidableEq, Repr

/-- `DebouncedBatchEngine.__init__` from millisecond integers. -/
def EngineConfig.ofMs (debounce_delay_ms max_debounce_wait_ms : Int) : EngineConfig :=
  { debounceDelay := (debounce_delay_ms : ℚ) / 1000,
    maxWait := (max_debounce_wait_ms : ℚ) / 1000 }

/-- Mutable engine state guarded by the lock: the live timer (its scheduled
delay), the first-enqueue time of the current cycle, the pending items and
the pending context.  `timer = none` means no live (uncancelled) timer. -/
structure EngineState (α γ : Type) where
  timer : Option ℚ
  firstEnqueueTime : Option ℚ
  pendingItems : List α
  pendingContext : Option γ

/-- The state of a freshly constructed engine. -/
def EngineState.init (α γ : Type) : EngineState α γ :=
  { timer := none, firstEnqueueTime := none, pendingItems := [], pendingContext := none }

/-- What one `enqueue` call did: the new state, whether a live timer was
cancelled, the delay of the timer it started (if any), and whether it
triggered an immediate flush (`should_process_now`). -/
structure EnqueueResult (α γ : Type) where
  state : EngineState α γ
  cancelledTimer : Bool
  startedTimer : Option ℚ
  flushedNow : Bool

/-- `DebouncedBatchEngine.enqueue`: extend the pending buffer, record the
first-enqueue time, cancel any live timer; flush immediately when the
elapsed time reaches `max_wait`, otherwise start one timer for
`min(debounce_delay, max_wait - elapsed)`. -/
def DebouncedBatchEngine.enqueue {α γ : Type} (cfg : EngineConfig)
    (st : EngineState α γ) (now : ℚ) (items : List α) (context : γ) :
    EnqueueResult α γ :=
  let pending := st.pendingItems ++ items
  let first := st.firstEnqueueTime.getD now
  let cancelled := st.timer.isSome
  let elapsed := now - first
  if elapsed ≥ cfg.maxWait then
    { state := { timer := none, firstEnqueueTime := some first,
                 pendingItems := pending, pendingContext := some context },
      cancelledTimer := cancelled, startedTimer := none, flushedNow := true }
  else
    let remaining_wait := min cfg.debounceDelay (cfg.maxWait - elapsed)
    { state := { timer := some remaining_wait, firstEnqueueTime := some first,
                 pendingItems := pending, pendingContext := some context },
      cancelledTimer := cancelled, startedTimer := some remaining_wait,
      flushedNow := false }

/-- `DebouncedBatchEngine._drain_locked`: snapshot and reset the pending
state; returns `none` (and clears the timer bookkeeping) when nothing is
pending. -/
def DebouncedBatchEngine.drain {α γ : Type} (st : EngineState α γ) :
    Option (List α × Option γ) × EngineState α γ :=
  if st.pendingItems.isEmpty then
    (none, { st with timer := none, firstEnqueueTime := none })
  else
    (some (st.pendingItems, st.pendingContext),
     { timer := none, firstEnqueueTime := none, pendingItems := [],
       pendingContext := none })

/-- The window key exactly as the specification words it: join
`"{name}_{value}"` (value normalized) with `"_"` over the window-mode
components in order; `"default_window"` when there are none. -/
def specWindowKey (window_components : List String) (images_dir : Option String)
    (item : ProjItem) : String :=
  let parts := window_components.map (fun comp =>
    comp ++ "_" ++ (default_normalizer comp
      ((assocLookup item.metadata comp).getD (PyVal.i 0)) item images_dir).toStr)
  if parts = [] then "default_window" else String.intercalate "_" parts


/-- A concrete ROI projection item matching the repository's receiver-core
test (`test_group_items_by_component_modes_source_normalization_for_rois`). -/
def roiSampleItem : ProjItem :=
  { dataType := some "rois",
    metadata := [("source", PyVal.s "/tmp/foo_results"), ("well", PyVal.s "A01"),
                 ("channel", PyVal.i 1)] }

/-- The component modes of the repository's receiver-core test. -/
def sampleModes : List (String × String) :=
  [("source", "window"), ("well", "frame"), ("channel", "channel")]

/-- The component order of the repository's receiver-core test. -/
def sampleOrder : List String := ["source", "well", "channel"]

/-- The grouping produced for `[roiSampleItem]` under `sampleModes`. -/
def sampleGrouped : GroupedWindowItems :=
  { window_components := ["source"], channel_components := ["channel"],
    slice_components := [], frame_components := ["well"],
    windows := [("source_images", [roiSampleItem])],
    fixed_window_labels := [("source_images", [("source", PyVal.s "images")])] }

/-!
Helper lemmas about the shared building blocks.
-/

theorem mem_dictInsert_of_mem {a : String} {ks : List String} (k : String)
    (h : a ∈ ks) : a ∈ dictInsert ks k := by
  unfold dictInsert
  split
  · exact h
  · exact List.mem_append_left _ h

theorem mem_dictInsert_self (ks : List String) (k : String) :
    k ∈ dictInsert ks k := by
  unfold dictInsert
  split
  · assumption
  · exact List.mem_append_right _ (List.mem_singleton.mpr rfl)

theorem nodup_dictInsert {ks : List String} (k : String) (h : ks.Nodup) :
    (dictInsert ks k).Nodup := by
  unfold dictInsert
  split
  · exact h
  · next hn =>
    refine List.Nodup.append h (List.nodup_singleton k) ?_
    intro a ha hb
    rw [List.mem_singleton] at hb
    exact hn (hb ▸ ha)

theorem mem_insertAll_left {a : String} {ks : List String} (names : List String)
    (h : a ∈ ks) : a ∈ insertAll ks names := by
  induction names generalizing ks with
  | nil => exact h
  | cons n rest ih => exact ih (mem_dictInsert_of_mem n h)

theorem mem_insertAll_right {a : String} (ks : List String) {names : List String}
    (h : a ∈ names) : a ∈ insertAll ks names := by
  induction names generalizing ks with
  | nil => cases h
  | cons n rest ih =>
    rcases List.mem_cons.mp h with h1 | h2
    · exact mem_insertAll_left rest (h1 ▸ mem_dictInsert_self ks n)
    · exact ih (dictInsert ks n) h2

theorem nodup_insertAll {ks : List String} (names : List String)
    (h : ks.Nodup) : (insertAll ks names).Nodup := by
  induction names generalizing ks with
  | nil => exact h
  | cons n rest ih => exact ih (nodup_dictInsert n h)

theorem cleanupBlocks_fst_subset (u : Bool) (names : List String) :
    ∀ blocks : List String, (cleanupBlocks blocks u names).1 ⊆ blocks := by
  induction names with
  | nil => intro blocks; simp [cleanupBlocks]
  | cons n rest ih =>
    intro blocks
    unfold cleanupBlocks
    split
    · exact (ih (blocks.erase n)).trans (List.erase_subset _ _)
    · exact ih blocks

theorem not_mem_cleanupBlocks_fst (u : Bool) {names : List String} :
    ∀ blocks : List String, blocks.Nodup →
      ∀ n ∈ names, n ∉ (cleanupBlocks blocks u names).1 := by
  induction names with
  | nil => intro _ _ n hn; cases hn
  | cons m rest ih =>
    intro blocks hnd n hn
    unfold cleanupBlocks
    split
    · next hm =>
      rcases List.mem_cons.mp hn with h1 | h2
      · subst h1
        intro hmem
        have hsub := cleanupBlocks_fst_subset u rest (blocks.erase n) hmem
        exact (List.Nodup.mem_erase_iff hnd).mp hsub |>.1 rfl
      · exact ih (blocks.erase m) (hnd.erase m) n h2
    · next hm =>
      rcases List.mem_cons.mp hn with h1 | h2
      · subst h1
        intro hmem
        exact hm (cleanupBlocks_fst_subset u rest blocks hmem)
      · exact ih blocks hnd n h2

theorem cleanupBlocks_events_mem (u : Bool) {names : List String} :
    ∀ blocks : List String, ∀ n, n ∈ names → n ∈ blocks →
      Ev.closeShm n ∈ (cleanupBlocks blocks u names).2 ∧
      (u = true → Ev.unlinkShm n ∈ (cleanupBlocks blocks u names).2) := by
  induction names with
  | nil => intro _ n hn; cases hn
  | cons m rest ih =>
    intro blocks n hn hb
    unfold cleanupBlocks
    rcases List.mem_cons.mp hn with h1 | h2
    · subst h1
      rw [if_pos hb]
      constructor
      · exact List.mem_cons_self _ _
      · intro hu
        subst hu
        exact List.mem_cons_of_mem _ (List.mem_append_left _ (List.mem_singleton.mpr rfl))
    · split
      · next hm =>
        by_cases hnm : n = m
        · subst hnm
          constructor
          · exact List.mem_cons_self _ _
          · intro hu
            subst hu
            exact List.mem_cons_of_mem _ (List.mem_append_left _ (List.mem_singleton.mpr rfl))
        · have := ih (blocks.erase m) n h2 (List.mem_erase_of_ne hnm |>.mpr hb)
          constructor
          · exact List.mem_cons_of_mem _ (List.mem_append_right _ this.1)
          · intro hu
            exact List.mem_cons_of_mem _ (List.mem_append_right _ (this.2 hu))
      · exact ih blocks n h2 hb

theorem cleanupBlocks_events_shape (u : Bool) {names : List String} :
    ∀ blocks : List String, ∀ e ∈ (cleanupBlocks blocks u names).2,
      (∃ n, e = Ev.closeShm n) ∨ (∃ n, e = Ev.unlinkShm n) := by
  induction names with
  | nil => intro blocks e he; simp [cleanupBlocks] at he
  | cons m rest ih =>
    intro blocks e he
    unfold cleanupBlocks at he
    split at he
    · rcases List.mem_cons.mp he with h1 | h2
      · exact Or.inl ⟨m, h1⟩
      · rcases List.mem_append.mp h2 with h3 | h4
        · cases u with
          | true =>
            simp only [if_pos] at h3
            rw [List.mem_singleton] at h3
            exact Or.inr ⟨m, h3⟩
          | false => simp at h3
        · exact ih (blocks.erase m) e h4
    · exact ih blocks e he

theorem cleanupBlocks_no_unlink {names : List String} :
    ∀ blocks : List String, ∀ n, Ev.unlinkShm n ∉ (cleanupBlocks blocks false names).2 := by
  induction names with
  | nil => intro blocks n h; simp [cleanupBlocks] at h
  | cons m rest ih =>
    intro blocks n h
    unfold cleanupBlocks at h
    split at h
    · rcases List.mem_cons.mp h with h1 | h2
      · cases h1
      · rcases List.mem_append.mp h2 with h3 | h4
        · simp at h3
        · exact ih (blocks.erase m) n h4
    · exact ih blocks n h

theorem containsEv_of_mem {b : Ev} {l : List Ev} (h : b ∈ l) :
    containsEv l b = true := by
  unfold containsEv
  rw [List.any_eq_true]
  exact ⟨b, h, by simp⟩

theorem occursBefore_append_cons (a b : Ev) (l₁ l₂ : List Ev) (h : b ∈ l₂) :
    occursBefore a b (l₁ ++ a :: l₂) = true := by
  induction l₁ with
  | nil => simp [occursBefore, containsEv_of_mem h]
  | cons e rest ih => simp [occursBefore, ih]

/-!
Claim theorems.
-/

/-- C10: when `data_list` and `file_paths` have different lengths, both
backends' `save_batch` raise `ValueError` immediately: no buffer is
allocated, no publisher is created, no message is sent (empty trace) and
the backend state is unchanged. -/
theorem save_batch_length_mismatch_valueerror
    (st : BackendState) (data_list : List StreamItem) (file_paths : List String)
    (key : String) (out : SendOutcome)
    (h : data_list.length ≠ file_paths.length) :
    FijiStreamingBackend.save_batch st data_list file_paths key out =
      { state := st, trace := [], error := some PyError.valueError } ∧
    NapariStreamingBackend.save_batch st data_list file_paths key out =
      { state := st, trace := [], error := some PyError.valueError } := by
  constructor <;>
    simp [FijiStreamingBackend.save_batch, NapariStreamingBackend.save_batch, h]

/-- Witness for C10 at a concrete mismatched input. -/
theorem save_batch_length_mismatch_valueerror_witness :
    FijiStreamingBackend.save_batch emptyBackend [sampleItem] [] "localhost:5555" SendOutcome.ok =
      { state := emptyBackend, trace := [], error := some PyError.valueError } ∧
    NapariStreamingBackend.save_batch emptyBackend [sampleItem] [] "localhost:5555" SendOutcome.ok =
      { state := emptyBackend, trace := [], error := some PyError.valueError } :=
  save_batch_length_mismatch_valueerror emptyBackend [sampleItem] [] "localhost:5555"
    SendOutcome.ok (by decide)

/-- C9 (counterexample): an empty `save_batch` call is not free of side
effects: on the fiji backend it connects a publisher and sends a batch
message, so its trace is nonempty and its state differs from the initial
one. -/
theorem save_batch_empty_noop_counterexample :
    ¬ ((FijiStreamingBackend.save_batch emptyBackend [] [] "localhost:5555" SendOutcome.ok).trace = [] ∧
       (FijiStreamingBackend.save_batch emptyBackend [] [] "localhost:5555" SendOutcome.ok).state = emptyBackend) := by
  decide

/-- C9 (amended): an empty `save_batch` call creates no shared-memory
buffer and registers nothing with the queue tracker, and it leaves the
shared-memory block map unchanged; but it is not a no-op: it establishes
the publisher connection when absent and sends an (empty) batch message. -/
theorem save_batch_empty_effects (st : BackendState) (key : String) :
    (FijiStreamingBackend.save_batch st [] [] key SendOutcome.ok).trace =
      (if key ∈ st.publishers then [] else [Ev.connect key]) ++ [Ev.send] ∧
    (FijiStreamingBackend.save_batch st [] [] key SendOutcome.ok).state.sharedMemoryBlocks =
      st.sharedMemoryBlocks ∧
    (FijiStreamingBackend.save_batch st [] [] key SendOutcome.ok).error = none ∧
    (NapariStreamingBackend.save_batch st [] [] key SendOutcome.ok).trace =
      (if key ∈ st.publishers then [] else [Ev.connect key]) ++ [Ev.send] ∧
    (NapariStreamingBackend.save_batch st [] [] key SendOutcome.ok).state.sharedMemoryBlocks =
      st.sharedMemoryBlocks ∧
    (NapariStreamingBackend.save_batch st [] [] key SendOutcome.ok).error = none := by
  refine ⟨?_, ?_, ?_, ?_, ?_, ?_⟩ <;>
    simp [FijiStreamingBackend.save_batch, NapariStreamingBackend.save_batch,
      getPublisher, insertAll, cleanupBlocks, imageShmNames] <;>
    split <;> simp

theorem occursBefore_cons_self (a b : Ev) (l : List Ev) (h : b ∈ l) :
    occursBefore a b (a :: l) = true := by
  simp [occursBefore, containsEv_of_mem h]

theorem occursBefore_append_left (a b : Ev) (l₀ l : List Ev)
    (h : occursBefore a b l = true) : occursBefore a b (l₀ ++ l) = true := by
  induction l₀ with
  | nil => exact h
  | cons e rest ih => simp [occursBefore, ih]

theorem getPublisher_events_shape (pubs : List String) (key : String) :
    ∀ e ∈ (getPublisher pubs key).2, ∃ k, e = Ev.connect k := by
  intro e he
  unfold getPublisher at he
  split at he
  · cases he
  · rw [List.mem_singleton] at he
    exact ⟨key, he⟩

theorem not_registerSent_mem_getPublisher (id : String) (pubs : List String)
    (key : String) : Ev.registerSent id ∉ (getPublisher pubs key).2 := by
  intro hmem
  obtain ⟨k, hk⟩ := getPublisher_events_shape pubs key _ hmem
  exact Ev.noConfusion hk

theorem not_registerSent_mem_cleanup (id : String) (blocks : List String)
    (u : Bool) (names : List String) :
    Ev.registerSent id ∉ (cleanupBlocks blocks u names).2 := by
  intro hmem
  rcases cleanupBlocks_events_shape u blocks _ hmem with ⟨n, hn⟩ | ⟨n, hn⟩ <;>
    exact Ev.noConfusion hn

theorem createShm_mem_parts_inv {n : String} (l₁ : List Ev) (names : List String)
    (l₃ : List Ev)
    (h1 : ∀ e ∈ l₁, ∃ k, e = Ev.connect k)
    (h3 : ∀ e ∈ l₃, (∃ m, e = Ev.closeShm m) ∨ (∃ m, e = Ev.unlinkShm m))
    (hmem : Ev.createShm n ∈ (l₁ ++ names.map Ev.createShm) ++ l₃) :
    n ∈ names := by
  rcases List.mem_append.mp hmem with h12 | hcl
  · rcases List.mem_append.mp h12 with hc | hcr
    · obtain ⟨k, hk⟩ := h1 _ hc
      exact Ev.noConfusion hk
    · obtain ⟨m, hm, heq⟩ := List.mem_map.mp hcr
      cases heq
      exact hm
  · rcases h3 _ hcl with ⟨m, hm⟩ | ⟨m, hm⟩ <;> exact Ev.noConfusion hm

/-- C1 (counterexample): in the fiji backend's `save_batch`, the concrete
successful call below sends the batch, yet no `register_sent` occurs before
the send: registration happens only after `publisher.send_json` returns, so
the claimed register-before-send ordering is false. -/
theorem register_before_send_counterexample :
    containsEv (FijiStreamingBackend.save_batch emptyBackend [sampleItem] ["A01_w1.tif"]
      "localhost:5555" SendOutcome.ok).trace Ev.send = true ∧
    ¬ (∀ it ∈ [sampleItem],
        occursBefore (Ev.registerSent it.itemId) Ev.send
          (FijiStreamingBackend.save_batch emptyBackend [sampleItem] ["A01_w1.tif"]
            "localhost:5555" SendOutcome.ok).trace = true) := by
  decide

/-- C1 (amended): on a successful publish both backends register every
`item_id` with the queue tracker strictly after the batch is sent over the
transport, and on a `Busy` drop or a send error no `item_id` is registered
at all. -/
theorem register_sent_after_send_ok
    (st : BackendState) (data_list : List StreamItem) (file_paths : List String)
    (key : String) (h : data_list.length = file_paths.length) :
    (∀ it ∈ data_list,
      occursBefore Ev.send (Ev.registerSent it.itemId)
        (FijiStreamingBackend.save_batch st data_list file_paths key SendOutcome.ok).trace = true) ∧
    (∀ it ∈ data_list,
      occursBefore Ev.send (Ev.registerSent it.itemId)
        (NapariStreamingBackend.save_batch st data_list file_paths key SendOutcome.ok).trace = true) ∧
    (∀ out, out ≠ SendOutcome.ok → ∀ id : String,
      Ev.registerSent id ∉ (FijiStreamingBackend.save_batch st data_list file_paths key out).trace ∧
      Ev.registerSent id ∉ (NapariStreamingBackend.save_batch st data_list file_paths key out).trace) := by
  refine ⟨?_, ?_, ?_⟩
  · intro it hit
    simp only [FijiStreamingBackend.save_batch, h, ne_eq, not_true_eq_false, if_false]
    apply occursBefore_append_left
    apply occursBefore_cons_self
    exact List.mem_append_left _ (List.mem_map_of_mem _ hit)
  · intro it hit
    simp only [NapariStreamingBackend.save_batch, h, ne_eq, not_true_eq_false, if_false]
    apply occursBefore_append_left
    apply occursBefore_cons_self
    exact List.mem_append_left _ (List.mem_map_of_mem _ hit)
  · intro out hout id
    cases out with
    | ok => exact absurd rfl hout
    | busy =>
      constructor
      · simp only [FijiStreamingBackend.save_batch, h, ne_eq, not_true_eq_false, if_false]
        intro hmem
        rcases List.mem_append.mp hmem with h12 | hcl
        · rcases List.mem_append.mp h12 with hc | hcr
          · exact not_registerSent_mem_getPublisher id _ _ hc
          · obtain ⟨m, _, heq⟩ := List.mem_map.mp hcr
            exact Ev.noConfusion heq
        · exact not_registerSent_mem_cleanup id _ _ _ hcl
      · simp only [NapariStreamingBackend.save_batch, h, ne_eq, not_true_eq_false, if_false]
        intro hmem
        rcases List.mem_append.mp hmem with h12 | hcl
        · rcases List.mem_append.mp h12 with hc | hcr
          · exact not_registerSent_mem_getPublisher id _ _ hc
          · obtain ⟨m, _, heq⟩ := List.mem_map.mp hcr
            exact Ev.noConfusion heq
        · exact not_registerSent_mem_cleanup id _ _ _ hcl
    | err =>
      constructor
      · simp only [FijiStreamingBackend.save_batch, h, ne_eq, not_true_eq_false, if_false]
        intro hmem
        rcases List.mem_append.mp hmem with hc | hcr
        · exact not_registerSent_mem_getPublisher id _ _ hc
        · obtain ⟨m, _, heq⟩ := List.mem_map.mp hcr
          exact Ev.noConfusion heq
      · simp only [NapariStreamingBackend.save_batch, h, ne_eq, not_true_eq_false, if_false]
        intro hmem
        rcases List.mem_append.mp hmem with h12 | hcl
        · rcases List.mem_append.mp h12 with hc | hcr
          · exact not_registerSent_mem_getPublisher id _ _ hc
          · obtain ⟨m, _, heq⟩ := List.mem_map.mp hcr
            exact Ev.noConfusion heq
        · exact not_registerSent_mem_cleanup id _ _ _ hcl

/-- Witness for C1 (amended) at a concrete successful single-image batch. -/
theorem register_sent_after_send_ok_witness :
    occursBefore Ev.send (Ev.registerSent "id-1")
      (FijiStreamingBackend.save_batch emptyBackend [sampleItem] ["A01_w1.tif"]
        "localhost:5555" SendOutcome.ok).trace = true ∧
    Ev.registerSent "id-1" ∉
      (FijiStreamingBackend.save_batch emptyBackend [sampleItem] ["A01_w1.tif"]
        "localhost:5555" SendOutcome.busy).trace :=
  ⟨(register_sent_after_send_ok emptyBackend [sampleItem] ["A01_w1.tif"]
      "localhost:5555" (by decide)).1 sampleItem (by decide),
   ((register_sent_after_send_ok emptyBackend [sampleItem] ["A01_w1.tif"]
      "localhost:5555" (by decide)).2.2 SendOutcome.busy (by decide) "id-1").1⟩

/-- C2 (counterexample): when the fiji backend's send fails with an error
other than `zmq.Again` (here: after creating the buffer for one image), the
error surfaces without the buffer being closed or unlinked; the handle is
still registered in `_shared_memory_blocks`. -/
theorem fiji_error_no_cleanup_counterexample :
    (FijiStreamingBackend.save_batch emptyBackend [sampleItem] ["A01_w1.tif"]
       "localhost:5555" SendOutcome.err).error = some PyError.sendError ∧
    Ev.createShm "fiji_140001_17" ∈
      (FijiStreamingBackend.save_batch emptyBackend [sampleItem] ["A01_w1.tif"]
        "localhost:5555" SendOutcome.err).trace ∧
    Ev.closeShm "fiji_140001_17" ∉
      (FijiStreamingBackend.save_batch emptyBackend [sampleItem] ["A01_w1.tif"]
        "localhost:5555" SendOutcome.err).trace ∧
    Ev.unlinkShm "fiji_140001_17" ∉
      (FijiStreamingBackend.save_batch emptyBackend [sampleItem] ["A01_w1.tif"]
        "localhost:5555" SendOutcome.err).trace ∧
    "fiji_140001_17" ∈
      (FijiStreamingBackend.save_batch emptyBackend [sampleItem] ["A01_w1.tif"]
        "localhost:5555" SendOutcome.err).state.sharedMemoryBlocks := by
  decide

/-- C2 (amended): only the napari backend guarantees failure-path cleanup,
and only for failures of the send itself: when its `send_json` raises a
non-`Busy` error, every shared buffer created for the batch is closed and
unlinked before the error is surfaced.  (The fiji backend has no such
handler, see the counterexample.) -/
theorem napari_error_cleanup_closes_and_unlinks
    (st : BackendState) (data_list : List StreamItem) (file_paths : List String)
    (key : String) (h : data_list.length = file_paths.length) :
    (NapariStreamingBackend.save_batch st data_list file_paths key SendOutcome.err).error =
      some PyError.sendError ∧
    ∀ n, Ev.createShm n ∈
        (NapariStreamingBackend.save_batch st data_list file_paths key SendOutcome.err).trace →
      Ev.closeShm n ∈
        (NapariStreamingBackend.save_batch st data_list file_paths key SendOutcome.err).trace ∧
      Ev.unlinkShm n ∈
        (NapariStreamingBackend.save_batch st data_list file_paths key SendOutcome.err).trace := by
  constructor
  · simp only [NapariStreamingBackend.save_batch, h, ne_eq, not_true_eq_false, if_false]
  · intro n hmem
    simp only [NapariStreamingBackend.save_batch, h, ne_eq, not_true_eq_false, if_false] at hmem ⊢
    have hnames : n ∈ imageShmNames data_list :=
      createShm_mem_parts_inv _ _ _ (getPublisher_events_shape _ _)
        (cleanupBlocks_events_shape true _) hmem
    have hblocks : n ∈ insertAll st.sharedMemoryBlocks (imageShmNames data_list) :=
      mem_insertAll_right _ hnames
    have hev := cleanupBlocks_events_mem true
      (insertAll st.sharedMemoryBlocks (imageShmNames data_list)) n hnames hblocks
    exact ⟨List.mem_append_right _ hev.1, List.mem_append_right _ (hev.2 rfl)⟩

/-- Witness for C2 (amended): a failed napari send over one image batch. -/
theorem napari_error_cleanup_closes_and_unlinks_witness :
    Ev.closeShm "fiji_140001_17" ∈
      (NapariStreamingBackend.save_batch emptyBackend [sampleItem] ["A01_w1.tif"]
        "localhost:5555" SendOutcome.err).trace ∧
    Ev.unlinkShm "fiji_140001_17" ∈
      (NapariStreamingBackend.save_batch emptyBackend [sampleItem] ["A01_w1.tif"]
        "localhost:5555" SendOutcome.err).trace :=
  (napari_error_cleanup_closes_and_unlinks emptyBackend [sampleItem] ["A01_w1.tif"]
    "localhost:5555" (by decide)).2 "fiji_140001_17" (by decide)

theorem not_unlinkShm_mem_ok_trace (n : String) (l₁ : List Ev)
    (names : List String) (ids : List Ev) (blocks : List String)
    (h1 : ∀ e ∈ l₁, ∃ k, e = Ev.connect k)
    (h2 : ∀ e ∈ ids, ∃ i, e = Ev.registerSent i) :
    Ev.unlinkShm n ∉
      (l₁ ++ names.map Ev.createShm) ++
        Ev.send :: (ids ++ (cleanupBlocks blocks false names).2) := by
  intro hmem
  rcases List.mem_append.mp hmem with h12 | htail
  · rcases List.mem_append.mp h12 with hc | hcr
    · obtain ⟨k, hk⟩ := h1 _ hc
      exact Ev.noConfusion hk
    · obtain ⟨m, _, heq⟩ := List.mem_map.mp hcr
      exact Ev.noConfusion heq
  · rcases List.mem_cons.mp htail with hs | hrest
    · exact Ev.noConfusion hs
    · rcases List.mem_append.mp hrest with hr | hcl
      · obtain ⟨i, hi⟩ := h2 _ hr
        exact Ev.noConfusion hi
      · exact cleanupBlocks_no_unlink blocks n hcl

theorem registerSent_events_shape (data_list : List StreamItem) :
    ∀ e ∈ data_list.map (fun it => Ev.registerSent it.itemId),
      ∃ i, e = Ev.registerSent i := by
  intro e he
  obtain ⟨it, _, heq⟩ := List.mem_map.mp he
  exact ⟨it.itemId, heq.symm⟩

/-- C3: on a successful publish, both backends close their local handle on
every shared buffer created for the batch, unlink none of them, and retain
no reference to those buffers in `_shared_memory_blocks` afterwards (for
the napari backend the buffers are those of its image items). -/
theorem save_batch_ok_closes_without_unlink
    (st : BackendState) (data_list : List StreamItem) (file_paths : List String)
    (key : String) (h : data_list.length = file_paths.length)
    (hnd : st.sharedMemoryBlocks.Nodup) :
    (FijiStreamingBackend.save_batch st data_list file_paths key SendOutcome.ok).error = none ∧
    (∀ it ∈ data_list, Ev.closeShm it.shmName ∈
      (FijiStreamingBackend.save_batch st data_list file_paths key SendOutcome.ok).trace) ∧
    (∀ n, Ev.unlinkShm n ∉
      (FijiStreamingBackend.save_batch st data_list file_paths key SendOutcome.ok).trace) ∧
    (∀ it ∈ data_list, it.shmName ∉
      (FijiStreamingBackend.save_batch st data_list file_paths key SendOutcome.ok).state.sharedMemoryBlocks) ∧
    (NapariStreamingBackend.save_batch st data_list file_paths key SendOutcome.ok).error = none ∧
    (∀ it ∈ data_list, it.dataType = DataType.image → Ev.closeShm it.shmName ∈
      (NapariStreamingBackend.save_batch st data_list file_paths key SendOutcome.ok).trace) ∧
    (∀ n, Ev.unlinkShm n ∉
      (NapariStreamingBackend.save_batch st data_list file_paths key SendOutcome.ok).trace) ∧
    (∀ it ∈ data_list, it.dataType = DataType.image → it.shmName ∉
      (NapariStreamingBackend.save_batch st data_list file_paths key SendOutcome.ok).state.sharedMemoryBlocks) := by
  refine ⟨?_, ?_, ?_, ?_, ?_, ?_, ?_, ?_⟩
  · simp only [FijiStreamingBackend.save_batch, h, ne_eq, not_true_eq_false, if_false]
  · intro it hit
    simp only [FijiStreamingBackend.save_batch, h, ne_eq, not_true_eq_false, if_false]
    have hnames : it.shmName ∈ data_list.map (fun it => it.shmName) :=
      List.mem_map_of_mem _ hit
    have hblocks := mem_insertAll_right st.sharedMemoryBlocks hnames
    have hev := cleanupBlocks_events_mem false _ _ hnames hblocks
    exact List.mem_append_right _ (List.mem_cons_of_mem _ (List.mem_append_right _ hev.1))
  · intro n
    simp only [FijiStreamingBackend.save_batch, h, ne_eq, not_true_eq_false, if_false]
    exact not_unlinkShm_mem_ok_trace n _ _ _ _
      (getPublisher_events_shape _ _) (registerSent_events_shape data_list)
  · intro it hit
    simp only [FijiStreamingBackend.save_batch, h, ne_eq, not_true_eq_false, if_false]
    exact not_mem_cleanupBlocks_fst false _ (nodup_insertAll _ hnd) _
      (List.mem_map_of_mem _ hit)
  · simp only [NapariStreamingBackend.save_batch, h, ne_eq, not_true_eq_false, if_false]
  · intro it hit himg
    simp only [NapariStreamingBackend.save_batch, h, ne_eq, not_true_eq_false, if_false]
    have hnames : it.shmName ∈ imageShmNames data_list :=
      List.mem_map_of_mem _ (List.mem_filter.mpr ⟨hit, by simp [himg]⟩)
    have hblocks := mem_insertAll_right st.sharedMemoryBlocks hnames
    have hev := cleanupBlocks_events_mem false _ _ hnames hblocks
    exact List.mem_append_right _ (List.mem_cons_of_mem _ (List.mem_append_right _ hev.1))
  · intro n
    simp only [NapariStreamingBackend.save_batch, h, ne_eq, not_true_eq_false, if_false]
    exact not_unlinkShm_mem_ok_trace n _ _ _ _
      (getPublisher_events_shape _ _) (registerSent_events_shape data_list)
  · intro it hit himg
    simp only [NapariStreamingBackend.save_batch, h, ne_eq, not_true_eq_false, if_false]
    exact not_mem_cleanupBlocks_fst false _ (nodup_insertAll _ hnd) _
      (List.mem_map_of_mem _ (List.mem_filter.mpr ⟨hit, by simp [himg]⟩))

/-- Witness for C3 at a concrete successful single-image batch. -/
theorem save_batch_ok_closes_without_unlink_witness :
    Ev.closeShm "fiji_140001_17" ∈
      (FijiStreamingBackend.save_batch emptyBackend [sampleItem] ["A01_w1.tif"]
        "localhost:5555" SendOutcome.ok).trace ∧
    Ev.unlinkShm "fiji_140001_17" ∉
      (FijiStreamingBackend.save_batch emptyBackend [sampleItem] ["A01_w1.tif"]
        "localhost:5555" SendOutcome.ok).trace :=
  ⟨(save_batch_ok_closes_without_unlink emptyBackend [sampleItem] ["A01_w1.tif"]
      "localhost:5555" (by decide) (by decide)).2.1 sampleItem (by decide),
   (save_batch_ok_closes_without_unlink emptyBackend [sampleItem] ["A01_w1.tif"]
      "localhost:5555" (by decide) (by decide)).2.2.1 "fiji_140001_17"⟩

/-- C4: when the publish is dropped because the outbound queue is full
(`zmq.Again`), both backends close and unlink every shared buffer created
for the batch before returning (no error is surfaced), and retain no
reference to those buffers in `_shared_memory_blocks`: no shared-memory
name of the batch outlives the call. -/
theorem save_batch_busy_closes_and_unlinks
    (st : BackendState) (data_list : List StreamItem) (file_paths : List String)
    (key : String) (h : data_list.length = file_paths.length)
    (hnd : st.sharedMemoryBlocks.Nodup) :
    (FijiStreamingBackend.save_batch st data_list file_paths key SendOutcome.busy).error = none ∧
    (∀ n, Ev.createShm n ∈
        (FijiStreamingBackend.save_batch st data_list file_paths key SendOutcome.busy).trace →
      Ev.closeShm n ∈
        (FijiStreamingBackend.save_batch st data_list file_paths key SendOutcome.busy).trace ∧
      Ev.unlinkShm n ∈
        (FijiStreamingBackend.save_batch st data_list file_paths key SendOutcome.busy).trace) ∧
    (∀ it ∈ data_list, it.shmName ∉
      (FijiStreamingBackend.save_batch st data_list file_paths key SendOutcome.busy).state.sharedMemoryBlocks) ∧
    (NapariStreamingBackend.save_batch st data_list file_paths key SendOutcome.busy).error = none ∧
    (∀ n, Ev.createShm n ∈
        (NapariStreamingBackend.save_batch st data_list file_paths key SendOutcome.busy).trace →
      Ev.closeShm n ∈
        (NapariStreamingBackend.save_batch st data_list file_paths key SendOutcome.busy).trace ∧
      Ev.unlinkShm n ∈
        (NapariStreamingBackend.save_batch st data_list file_paths key SendOutcome.busy).trace) ∧
    (∀ it ∈ data_list, it.dataType = DataType.image → it.shmName ∉
      (NapariStreamingBackend.save_batch st data_list file_paths key SendOutcome.busy).state.sharedMemoryBlocks) := by
  refine ⟨?_, ?_, ?_, ?_, ?_, ?_⟩
  · simp only [FijiStreamingBackend.save_batch, h, ne_eq, not_true_eq_false, if_false]
  · intro n hmem
    simp only [FijiStreamingBackend.save_batch, h, ne_eq, not_true_eq_false, if_false] at hmem ⊢
    have hnames : n ∈ data_list.map (fun it => it.shmName) :=
      createShm_mem_parts_inv _ _ _ (getPublisher_events_shape _ _)
        (cleanupBlocks_events_shape true _) hmem
    have hblocks := mem_insertAll_right st.sharedMemoryBlocks hnames
    have hev := cleanupBlocks_events_mem true _ _ hnames hblocks
    exact ⟨List.mem_append_right _ hev.1, List.mem_append_right _ (hev.2 rfl)⟩
  · intro it hit
    simp only [FijiStreamingBackend.save_batch, h, ne_eq, not_true_eq_false, if_false]
    exact not_mem_cleanupBlocks_fst true _ (nodup_insertAll _ hnd) _
      (List.mem_map_of_mem _ hit)
  · simp only [NapariStreamingBackend.save_batch, h, ne_eq, not_true_eq_false, if_false]
  · intro n hmem
    simp only [NapariStreamingBackend.save_batch, h, ne_eq, not_true_eq_false, if_false] at hmem ⊢
    have hnames : n ∈ imageShmNames data_list :=
      createShm_mem_parts_inv _ _ _ (getPublisher_events_shape _ _)
        (cleanupBlocks_events_shape true _) hmem
    have hblocks := mem_insertAll_right st.sharedMemoryBlocks hnames
    have hev := cleanupBlocks_events_mem true _ _ hnames hblocks
    exact ⟨List.mem_append_right _ hev.1, List.mem_append_right _ (hev.2 rfl)⟩
  · intro it hit himg
    simp only [NapariStreamingBackend.save_batch, h, ne_eq, not_true_eq_false, if_false]
    exact not_mem_cleanupBlocks_fst true _ (nodup_insertAll _ hnd) _
      (List.mem_map_of_mem _ (List.mem_filter.mpr ⟨hit, by simp [himg]⟩))

/-- Witness for C4 at a concrete dropped single-image batch. -/
theorem save_batch_busy_closes_and_unlinks_witness :
    Ev.closeShm "fiji_140001_17" ∈
      (FijiStreamingBackend.save_batch emptyBackend [sampleItem] ["A01_w1.tif"]
        "localhost:5555" SendOutcome.busy).trace ∧
    Ev.unlinkShm "fiji_140001_17" ∈
      (FijiStreamingBackend.save_batch emptyBackend [sampleItem] ["A01_w1.tif"]
        "localhost:5555" SendOutcome.busy).trace :=
  (save_batch_busy_closes_and_unlinks emptyBackend [sampleItem] ["A01_w1.tif"]
    "localhost:5555" (by decide) (by decide)).2.1 "fiji_140001_17" (by decide)

/-- The sub-sequence of `component_order` whose declared mode is `m`. -/
def modeFilter (modes : List (String × String)) (m : String)
    (order : List String) : List String :=
  order.filter (fun c => decide (assocLookup modes c = some m))

theorem classifyComponents_ok (modes : List (String × String)) :
    ∀ order : List String,
      (∀ c ∈ order, assocLookup modes c = some "window" ∨
        assocLookup modes c = some "channel" ∨
        assocLookup modes c = some "slice" ∨
        assocLookup modes c = some "frame") →
      classifyComponents modes order =
        Except.ok (modeFilter modes "window" order,
          modeFilter modes "channel" order,
          modeFilter modes "slice" order,
          modeFilter modes "frame" order) := by
  intro order
  induction order with
  | nil => intro _; rfl
  | cons c rest ih =>
    intro h
    have hrest := fun c' hc' => h c' (List.mem_cons_of_mem c hc')
    unfold classifyComponents
    rw [ih hrest]
    rcases h c (List.mem_cons_self c rest) with hm | hm | hm | hm <;>
      rw [hm] <;> simp [modeFilter, List.filter_cons, hm]

/-- C5 (counterexample): `"stack"` belongs to the declared mode set and the
single-entry `component_modes` below covers the whole `component_order`,
yet `group_items_by_component_modes` fails with a `KeyError`: its result
dictionary only has the four keys `window`, `channel`, `slice`, `frame`. -/
theorem group_items_stack_mode_counterexample :
    (∀ p ∈ [("channel", "stack")], p.2 = "window" ∨ p.2 = "slice" ∨
      p.2 = "stack" ∨ p.2 = "channel" ∨ p.2 = "frame") ∧
    (∀ c ∈ ["channel"], (assocLookup [("channel", "stack")] c).isSome = true) ∧
    group_items_by_component_modes [] [("channel", "stack")] ["channel"] none =
      Except.error (ProjError.keyErrorMode "stack") :=
  ⟨by decide, by decide, rfl⟩

/-- C5 (amended): with every declared mode in the set
`{window, channel, slice, frame}` (the mode `"stack"` instead raises
`KeyError`, see the counterexample) and every `component_order` name
present in `component_modes`, `group_items_by_component_modes` succeeds
and returns the four component lists, each the sub-sequence of
`component_order` whose mode is that name. -/
theorem group_items_modes_classify_components
    (items : List ProjItem) (modes : List (String × String))
    (order : List String) (dir : Option String)
    (h : ∀ c ∈ order, assocLookup modes c = some "window" ∨
      assocLookup modes c = some "channel" ∨
      assocLookup modes c = some "slice" ∨
      assocLookup modes c = some "frame") :
    ∃ g, group_items_by_component_modes items modes order dir = Except.ok g ∧
      g.window_components = modeFilter modes "window" order ∧
      g.channel_components = modeFilter modes "channel" order ∧
      g.slice_components = modeFilter modes "slice" order ∧
      g.frame_components = modeFilter modes "frame" order := by
  unfold group_items_by_component_modes
  rw [classifyComponents_ok modes order h]
  exact ⟨_, rfl, rfl, rfl, rfl, rfl⟩

/-- Witness for C5 (amended) at the configuration of the repository's own
receiver-core test. -/
theorem group_items_modes_classify_components_witness :
    ∃ g, group_items_by_component_modes []
        [("source", "window"), ("well", "frame"), ("channel", "channel")]
        ["source", "well", "channel"] none = Except.ok g ∧
      g.window_components = modeFilter
        [("source", "window"), ("well", "frame"), ("channel", "channel")]
        "window" ["source", "well", "channel"] ∧
      g.channel_components = modeFilter
        [("source", "window"), ("well", "frame"), ("channel", "channel")]
        "channel" ["source", "well", "channel"] ∧
      g.slice_components = modeFilter
        [("source", "window"), ("well", "frame"), ("channel", "channel")]
        "slice" ["source", "well", "channel"] ∧
      g.frame_components = modeFilter
        [("source", "window"), ("well", "frame"), ("channel", "channel")]
        "frame" ["source", "well", "channel"] :=
  group_items_modes_classify_components []
    [("source", "window"), ("well", "frame"), ("channel", "channel")]
    ["source", "well", "channel"] none (by decide)

theorem lookupWindows_cons (p : String × List ProjItem)
    (ps : List (String × List ProjItem)) (k : String) :
    lookupWindows (p :: ps) k = if p.1 = k then p.2 else lookupWindows ps k := rfl

theorem assocAppend_cons (p : String × List ProjItem)
    (ps : List (String × List ProjItem)) (k : String) (it : ProjItem) :
    assocAppend (p :: ps) k it =
      if p.1 = k then (p.1, p.2 ++ [it]) :: ps else p :: assocAppend ps k it := rfl

theorem mem_lookupWindows_assocAppend_self (ws : List (String × List ProjItem))
    (k : String) (it : ProjItem) :
    it ∈ lookupWindows (assocAppend ws k it) k := by
  induction ws with
  | nil => simp [assocAppend, lookupWindows]
  | cons p ps ih =>
    by_cases hk : p.1 = k
    · rw [assocAppend_cons, if_pos hk, lookupWindows_cons, if_pos hk]
      exact List.mem_append_right _ (List.mem_singleton.mpr rfl)
    · rw [assocAppend_cons, if_neg hk, lookupWindows_cons, if_neg hk]
      exact ih

theorem mem_lookupWindows_assocAppend_of_mem (ws : List (String × List ProjItem))
    (k k' : String) (it x : ProjItem) (h : x ∈ lookupWindows ws k) :
    x ∈ lookupWindows (assocAppend ws k' it) k := by
  induction ws with
  | nil => simp [lookupWindows] at h
  | cons p ps ih =>
    by_cases hk : p.1 = k
    · have h2 : x ∈ p.2 := by rwa [lookupWindows_cons, if_pos hk] at h
      by_cases hk' : p.1 = k'
      · rw [assocAppend_cons, if_pos hk', lookupWindows_cons, if_pos hk]
        exact List.mem_append_left _ h2
      · rw [assocAppend_cons, if_neg hk', lookupWindows_cons, if_pos hk]
        exact h2
    · have h2 : x ∈ lookupWindows ps k := by rwa [lookupWindows_cons, if_neg hk] at h
      by_cases hk' : p.1 = k'
      · rw [assocAppend_cons, if_pos hk', lookupWindows_cons, if_neg hk]
        exact h2
      · rw [assocAppend_cons, if_neg hk', lookupWindows_cons, if_neg hk]
        exact ih h2

theorem lookupWindows_fold_preserve (wcs : List String) (dir : Option String) :
    ∀ (items : List ProjItem)
      (acc : List (String × List ProjItem) × List (String × List (String × PyVal)))
      (k : String) (x : ProjItem), x ∈ lookupWindows acc.1 k →
      x ∈ lookupWindows (List.foldl (buildStep wcs dir) acc items).1 k := by
  intro items
  induction items with
  | nil => intro acc k x h; exact h
  | cons it rest ih =>
    intro acc k x h
    exact ih _ k x (mem_lookupWindows_assocAppend_of_mem _ _ _ _ _ h)

theorem mem_lookupWindows_buildWindows (wcs : List String) (dir : Option String) :
    ∀ (items : List ProjItem)
      (acc : List (String × List ProjItem) × List (String × List (String × PyVal))),
      ∀ it ∈ items,
        it ∈ lookupWindows (List.foldl (buildStep wcs dir) acc items).1
          (windowKeyFor wcs dir it).1 := by
  intro items
  induction items with
  | nil => intro acc it h; cases h
  | cons a rest ih =>
    intro acc it h
    rcases List.mem_cons.mp h with h1 | h2
    · subst h1
      exact lookupWindows_fold_preserve wcs dir rest _ _ _
        (mem_lookupWindows_assocAppend_self acc.1 (windowKeyFor wcs dir it).1 it)
    · exact ih _ it h2

theorem windowPairs_total (item : ProjItem) (dir : Option String) :
    ∀ wcs : List String,
      (∀ c ∈ wcs, (assocLookup item.metadata c).isSome = true) →
      windowPairs wcs dir item =
      wcs.map (fun c => (c, default_normalizer c
        ((assocLookup item.metadata c).getD (PyVal.i 0)) item dir)) := by
  intro wcs
  induction wcs with
  | nil => intro _; rfl
  | cons c rest ih =>
    intro h
    obtain ⟨v, hv⟩ := Option.isSome_iff_exists.mp (h c (List.mem_cons_self c rest))
    simp only [windowPairs, List.filterMap_cons, List.map_cons, hv, Option.getD_some]
    rw [show List.filterMap _ rest = windowPairs rest dir item from rfl,
      ih (fun c' hc' => h c' (List.mem_cons_of_mem c hc'))]

theorem windowKeyFor_eq_specWindowKey (wcs : List String) (dir : Option String)
    (item : ProjItem)
    (h : ∀ c ∈ wcs, (assocLookup item.metadata c).isSome = true) :
    (windowKeyFor wcs dir item).1 = specWindowKey wcs dir item := by
  unfold windowKeyFor specWindowKey
  rw [windowPairs_total item dir wcs h]
  simp only [List.map_map]
  rfl

/-- C6: when every item's metadata contains every window-mode component,
`group_items_by_component_modes` files each item under the window key
obtained by joining `"{name}_{value}"` (value normalized) with `"_"` over
the window-mode components in `component_order`; with no window-mode
components every item lands under `"default_window"`. -/
theorem group_items_window_key_assignment
    (items : List ProjItem) (modes : List (String × String))
    (order : List String) (dir : Option String) (g : GroupedWindowItems)
    (hok : group_items_by_component_modes items modes order dir = Except.ok g)
    (h : ∀ item ∈ items, ∀ c ∈ g.window_components,
      (assocLookup item.metadata c).isSome = true) :
    ∀ item ∈ items,
      item ∈ lookupWindows g.windows (specWindowKey g.window_components dir item) := by
  intro item hitem
  unfold group_items_by_component_modes at hok
  rcases hcl : classifyComponents modes order with e | ⟨w, ch, sl, fr⟩
  · rw [hcl] at hok
    cases hok
  · rw [hcl] at hok
    simp only [] at hok
    cases hok
    have hkey := windowKeyFor_eq_specWindowKey w dir item (h item hitem)
    have hmem := mem_lookupWindows_buildWindows w dir items ([], []) item hitem
    rw [hkey] at hmem
    exact hmem


/-- Witness for C6 on the repository's own receiver-core test inputs. -/
theorem group_items_window_key_assignment_witness :
    roiSampleItem ∈ lookupWindows sampleGrouped.windows
      (specWindowKey sampleGrouped.window_components (some "/my/plate/images")
        roiSampleItem) :=
  group_items_window_key_assignment [roiSampleItem] sampleModes sampleOrder
    (some "/my/plate/images") sampleGrouped (by rfl) (by decide) roiSampleItem
    (by decide)

/-- C7: every `enqueue` appends the given items to the pending buffer,
records the first-enqueue time on the first enqueue of a cycle, and cancels
any live timer; then, if the elapsed time since the first enqueue is at
least `max_wait`, it flushes immediately (starting no timer, and the drain
of the resulting state yields the whole pending batch), and otherwise it
starts exactly one new timer with delay
`min(debounce_delay, max_wait - elapsed)`, which is the only live timer. -/
theorem enqueue_debounce_behavior {α γ : Type} (cfg : EngineConfig)
    (st : EngineState α γ) (now : ℚ) (items : List α) (context : γ) :
    (DebouncedBatchEngine.enqueue cfg st now items context).state.pendingItems =
      st.pendingItems ++ items ∧
    (DebouncedBatchEngine.enqueue cfg st now items context).state.firstEnqueueTime =
      some (st.firstEnqueueTime.getD now) ∧
    (DebouncedBatchEngine.enqueue cfg st now items context).cancelledTimer =
      st.timer.isSome ∧
    (now - st.firstEnqueueTime.getD now ≥ cfg.maxWait →
      (DebouncedBatchEngine.enqueue cfg st now items context).flushedNow = true ∧
      (DebouncedBatchEngine.enqueue cfg st now items context).startedTimer = none ∧
      (DebouncedBatchEngine.enqueue cfg st now items context).state.timer = none ∧
      (st.pendingItems ++ items ≠ [] →
        (DebouncedBatchEngine.drain
          (DebouncedBatchEngine.enqueue cfg st now items context).state).1 =
          some (st.pendingItems ++ items, some context))) ∧
    (¬ now - st.firstEnqueueTime.getD now ≥ cfg.maxWait →
      (DebouncedBatchEngine.enqueue cfg st now items context).flushedNow = false ∧
      (DebouncedBatchEngine.enqueue cfg st now items context).startedTimer =
        some (min cfg.debounceDelay
          (cfg.maxWait - (now - st.firstEnqueueTime.getD now))) ∧
      (DebouncedBatchEngine.enqueue cfg st now items context).state.timer =
        (DebouncedBatchEngine.enqueue cfg st now items context).startedTimer) := by
  by_cases h : now - st.firstEnqueueTime.getD now ≥ cfg.maxWait
  · refine ⟨?_, ?_, ?_, fun _ => ⟨?_, ?_, ?_, fun hne => ?_⟩,
      fun hcon => absurd h hcon⟩
    · simp [DebouncedBatchEngine.enqueue, h]
    · simp [DebouncedBatchEngine.enqueue, h]
    · simp [DebouncedBatchEngine.enqueue, h]
    · simp [DebouncedBatchEngine.enqueue, h]
    · simp [DebouncedBatchEngine.enqueue, h]
    · simp [DebouncedBatchEngine.enqueue, h]
    · simp [DebouncedBatchEngine.enqueue, DebouncedBatchEngine.drain, h,
        List.isEmpty_iff, hne]
  · refine ⟨?_, ?_, ?_, fun hcon => absurd hcon h, fun _ => ⟨?_, ?_, ?_⟩⟩ <;>
      simp [DebouncedBatchEngine.enqueue, DebouncedBatchEngine.drain, h]

/-- Witness for C7: one enqueue on a fresh engine with the test
configuration (debounce 10 s, max wait 20 s) starts a 10 s timer and holds
exactly the enqueued item. -/
theorem enqueue_debounce_behavior_witness :
    (DebouncedBatchEngine.enqueue (EngineConfig.ofMs 10000 20000)
      (EngineState.init Nat Nat) 0 [1] 2).state.pendingItems = [1] ∧
    (DebouncedBatchEngine.enqueue (EngineConfig.ofMs 10000 20000)
      (EngineState.init Nat Nat) 0 [1] 2).startedTimer = some 10 := by
  have h := enqueue_debounce_behavior (EngineConfig.ofMs 10000 20000)
    (EngineState.init Nat Nat) 0 [1] 2
  constructor
  · rw [h.1]
    rfl
  · have h2 := h.2.2.2.2 (by norm_num [EngineConfig.ofMs, EngineState.init])
    rw [h2.2.1]
    norm_num [EngineConfig.ofMs, EngineState.init]

/-- C8: the default normalizer substitutes the leaf name of `images_dir`
for a synthetic ROI `source` value (one containing `"_results"` or a `/`
path separator) when an images directory is supplied; every other
component/value/item combination passes through unchanged; consequently an
ROI item with a synthetic source gets the same window key as an image item
whose `source` equals that leaf name and whose other metadata agrees. -/
theorem default_normalizer_roi_source_substitution :
    (∀ (v : PyVal) (item : ProjItem) (d : String),
      item.dataType = some "rois" → d ≠ "" →
      (strContains v.toStr "_results" || strContains v.toStr "/") = true →
      default_normalizer "source" v item (some d) = PyVal.s (pathName d)) ∧
    (∀ (c : String) (v : PyVal) (item : ProjItem) (dir : Option String),
      (c ≠ "source" ∨ item.dataType ≠ some "rois" ∨ truthyDir dir = false ∨
        (strContains v.toStr "_results" = false ∧ strContains v.toStr "/" = false)) →
      default_normalizer c v item dir = v) ∧
    (∀ (w : List String) (d : String) (roiItem imgItem : ProjItem) (v : PyVal),
      roiItem.dataType = some "rois" → imgItem.dataType ≠ some "rois" → d ≠ "" →
      (strContains v.toStr "_results" || strContains v.toStr "/") = true →
      assocLookup roiItem.metadata "source" = some v →
      assocLookup imgItem.metadata "source" = some (PyVal.s (pathName d)) →
      (∀ c, c ≠ "source" →
        assocLookup roiItem.metadata c = assocLookup imgItem.metadata c) →
      (windowKeyFor w (some d) roiItem).1 = (windowKeyFor w (some d) imgItem).1) := by
  refine ⟨?_, ?_, ?_⟩
  · intro v item d hroi hd hsyn
    simp [default_normalizer, truthyDir, hd, hroi, hsyn]
  · intro c v item dir hcase
    unfold default_normalizer
    rcases hcase with hc | hdt | hdir | ⟨h1, h2⟩
    · rw [if_neg (by simp [hc])]
    · rw [if_neg (by simp [hdt])]
    · rw [if_neg (by simp [hdir])]
    · split
      · simp [h1, h2]
      · rfl
  · intro w d roiItem imgItem v hroi himg hd hsyn hlr hli hagree
    have e1 : default_normalizer "source" v roiItem (some d) = PyVal.s (pathName d) := by
      simp [default_normalizer, truthyDir, hd, hroi, hsyn]
    have e2 : default_normalizer "source" (PyVal.s (pathName d)) imgItem (some d) =
        PyVal.s (pathName d) := by
      simp [default_normalizer, himg]
    have hpairs : ∀ wcs : List String,
        windowPairs wcs (some d) roiItem = windowPairs wcs (some d) imgItem := by
      intro wcs
      induction wcs with
      | nil => rfl
      | cons c rest ih =>
        simp only [windowPairs, List.filterMap_cons]
        rw [show List.filterMap _ rest = windowPairs rest (some d) roiItem from rfl,
          show List.filterMap _ rest = windowPairs rest (some d) imgItem from rfl, ih]
        by_cases hc : c = "source"
        · subst hc
          rw [hlr, hli]
          simp only [e1, e2]
        · rw [hagree c hc]
          cases hl : assocLookup imgItem.metadata c with
          | none => rfl
          | some v' =>
            have er : default_normalizer c v' roiItem (some d) = v' := by
              simp [default_normalizer, hc]
            have ei : default_normalizer c v' imgItem (some d) = v' := by
              simp [default_normalizer, hc]
            simp only [er, ei]
    unfold windowKeyFor
    rw [hpairs w]

/-- Witness for C8 on the specification's own S2 scenario values. -/
theorem default_normalizer_roi_source_substitution_witness :
    default_normalizer "source" (PyVal.s "/tmp/plate_results")
        (ProjItem.mk (some "rois") [("source", PyVal.s "/tmp/plate_results")])
        (some "/tmp/plate/images") = PyVal.s (pathName "/tmp/plate/images") ∧
    (windowKeyFor ["source"] (some "/tmp/plate/images")
        (ProjItem.mk (some "rois") [("source", PyVal.s "/tmp/plate_results")])).1 =
      (windowKeyFor ["source"] (some "/tmp/plate/images")
        (ProjItem.mk (some "image") [("source", PyVal.s "images")])).1 :=
  ⟨default_normalizer_roi_source_substitution.1 (PyVal.s "/tmp/plate_results")
      (ProjItem.mk (some "rois") [("source", PyVal.s "/tmp/plate_results")])
      "/tmp/plate/images" rfl (by decide) (by decide),
   default_normalizer_roi_source_substitution.2.2 ["source"] "/tmp/plate/images"
      (ProjItem.mk (some "rois") [("source", PyVal.s "/tmp/plate_results")])
      (ProjItem.mk (some "image") [("source", PyVal.s "images")])
      (PyVal.s "/tmp/plate_results") rfl (by decide) (by decide) (by decide)
      rfl (by rfl)
      (by
        intro c hc
        have hdec : decide ("source" = c) = false :=
          decide_eq_false (fun hx => hc hx.symm)
        simp [assocLookup, List.find?, hdec])⟩
